import Mathlib

/-!
Verification development for the pubsub-store repository: a shallow
embedding of the Provider / Store protocol layer (src/provider.js,
src/store.js, src/subjects.js) together with proofs of the behavioural
properties stated in the project specification.

JavaScript values exchanged on the bus are modelled by the inductive
type `Value`; JS objects are association lists of string keys; the ramda
`merge` is `rMerge`, `R.prop` is `propV`, `R.isNil` is `isNilV`.
External primitives (the transport, `JSON.parse`) are parameters of the
embedded functions; `JSON.stringify` is modelled by `stringify`.
-/

namespace PubsubStore

/-- Model of a JavaScript value as it appears on the wire or inside the
library: `undefined` models `undefined`, objects are ordered association
lists of fields. -/
inductive Value where
  | undefined
  | null
  | bool (b : Bool)
  | num (n : Int)
  | str (s : String)
  | arr (elems : List Value)
  | obj (fields : List (String × Value))

/-- A JavaScript object: an ordered association list of fields. -/
abbrev Obj := List (String × Value)

/-- First binding of key `k` in an object, `none` when the key is absent
(JS property access yielding `undefined`). -/
def olookup (k : String) : Obj → Option Value
  | [] => none
  | kv :: rest => if kv.1 = k then some kv.2 else olookup k rest

/-- ramda `merge(a, b)` / `Object.assign(\x7b\x7d, a, b)`: keys of `a`
in order with values overridden by `b` where present, followed by the
keys of `b` that are not in `a`. -/
def rMerge (a b : Obj) : Obj :=
  a.map (fun kv => (kv.1, (olookup kv.1 b).getD kv.2)) ++
    b.filter (fun kv => (olookup kv.1 a).isNone)

/-- ramda `prop(k)` on a value: field access, `undefined` when absent or
when the receiver is not an object. -/
def propV (k : String) : Value → Value
  | .obj fs => (olookup k fs).getD .undefined
  | _ => .undefined

/-- ramda `isNil`: `true` exactly on `null` and `undefined`. -/
def isNilV : Value → Bool
  | .undefined => true
  | .null => true
  | _ => false

/-- `true` when the value is an object carrying key `k`. -/
def hasKey (v : Value) (k : String) : Bool :=
  match v with
  | .obj fs => (olookup k fs).isSome
  | _ => false

/-- Escape of one character inside a JSON string literal. -/
def escapeChar (c : Char) : String :=
  if c = '"' then "\\\"" else if c = '\\' then "\\\\" else String.singleton c

/-- Escape of the body of a JSON string literal. -/
def jsonEscape (s : String) : String :=
  String.join (s.toList.map escapeChar)

mutual

/-- Model of `JSON.stringify` on `Value` (claims only depend on the fact
that a string is produced, not on its exact text; `undefined`, which
`JSON.stringify` handles specially, never occurs in stringified
envelopes of this development and is rendered as `null`). -/
def stringify : Value → String
  | .undefined => "null"
  | .null => "null"
  | .bool b => if b then "true" else "false"
  | .num n => toString n
  | .str s => "\"" ++ jsonEscape s ++ "\""
  | .arr xs => "[" ++ stringifyList xs ++ "]"
  | .obj fs => "\x7b" ++ stringifyFields fs ++ "\x7d"

/-- Comma-separated serialization of array elements. -/
def stringifyList : List Value → String
  | [] => ""
  | [v] => stringify v
  | v :: rest => stringify v ++ "," ++ stringifyList rest

/-- Comma-separated serialization of object fields. -/
def stringifyFields : List (String × Value) → String
  | [] => ""
  | [kv] => "\"" ++ jsonEscape kv.1 ++ "\":" ++ stringify kv.2
  | kv :: rest =>
      "\"" ++ jsonEscape kv.1 ++ "\":" ++ stringify kv.2 ++ "," ++
        stringifyFields rest

end

/-! ## Store dispatcher (src/store.js) -/

/-- Model of a JS `Error` as it reaches `buildError`: the `message`
field plus any further own properties (`name`, `stack`, attachments). -/
structure JsError where
  message : String
  extra : List (String × Value)

/-- `buildError = pipe(pick([\"message\"]), objOf(\"error\"))` from
src/store.js: only the `message` field of the error survives. -/
def buildError (e : JsError) : Value :=
  .obj [("error", .obj [("message", .str e.message)])]

/-- `buildResult = objOf(\"result\")` from src/store.js. -/
def buildResult (v : Value) : Value :=
  .obj [("result", v)]

/-- What `exec` hands to `transport.publish`: either a raw JS object or
a JSON string. -/
inductive Wire where
  | objVal (v : Value)
  | strVal (s : String)

/-- Observable outcome of one invocation of the store-side `exec`
handler (src/store.js lines 82-105): the synchronous rejection of the
guard clauses, the error event emitted, whether the model-process
function was invoked, the response envelope built, and the value handed
to `publish` together with its reply subject. -/
structure StoreExecOut where
  localReject : Option String
  emitted : Option JsError
  modelCalled : Bool
  envelope : Option Value
  published : Option (String × Wire)

/-- The store-side `exec` from src/store.js. `parse` stands for
`tryCatch(JSON.parse, identity)`, `process` for the model-invoking
function built per subject; `msg` / `replyTo` are `none` when the
transport passes a non-string (e.g. `undefined`). On a parse failure
the handler emits the error and publishes `buildError e` itself (no
`JSON.stringify` in that branch); on the parsed path it runs `process`,
wraps with `buildResult` / `buildError`, stringifies and publishes. -/
def storeExec (parse : String → Except JsError Value)
    (process : Value → Except JsError Value)
    (msg replyTo : Option String) : StoreExecOut :=
  match msg with
  | none => ⟨some "msg must be a string", none, false, none, none⟩
  | some m =>
    match replyTo with
    | none => ⟨some "replyTo must be a string", none, false, none, none⟩
    | some rt =>
      match parse m with
      | .error e =>
          ⟨none, some e, false, some (buildError e),
            some (rt, .objVal (buildError e))⟩
      | .ok payload =>
          let env :=
            match process payload with
            | .ok v => buildResult v
            | .error e => buildError e
          ⟨none, none, true, some env, some (rt, .strVal (stringify env))⟩

/-- `updateOptionsBase` from src/store.js. -/
def updateOptionsBase : Obj := [("multi", .bool true)]

/-- Argument extraction of `Store._onUpdate` (src/store.js lines
177-189): `(prop conditions, prop object,
pipe(prop projection, objOf select, merge updateOptionsBase))`
applied to the parsed wire payload. -/
def onUpdateArgs (payload : Value) : Value × Value × Obj :=
  (propV "conditions" payload, propV "object" payload,
    rMerge updateOptionsBase [("select", propV "projection" payload)])

/-! ## Subject builder (src/subjects.js) -/

/-- The four per-operation subject lists. -/
structure SubjectGroups where
  count : List String
  create : List String
  find : List String
  update : List String

/-- The prefix table of src/subjects.js. -/
structure SubjectPrefixes where
  count : String
  create : String
  find : String
  update : String

/-- Default prefixes of src/subjects.js. -/
def defaultPrefixes : SubjectPrefixes :=
  ⟨"count", "create", "find", "update"⟩

/-- `getSubjects(name, \x7bprefixes, suffix\x7d)` from src/subjects.js:
the name is lowercased, a non-empty suffix is appended after a dot, and
each group is the pair `(base, base + ".>")`. The empty string models
an absent suffix. -/
def getSubjects (name : String) (prefixes : SubjectPrefixes)
    (suffix : String) : SubjectGroups :=
  let n := name.toLower
  let sfx := if suffix = "" then "" else "." ++ suffix
  { count := [prefixes.count ++ "." ++ n ++ sfx,
      prefixes.count ++ "." ++ n ++ sfx ++ ".>"],
    create := [prefixes.create ++ "." ++ n ++ sfx,
      prefixes.create ++ "." ++ n ++ sfx ++ ".>"],
    find := [prefixes.find ++ "." ++ n ++ sfx,
      prefixes.find ++ "." ++ n ++ sfx ++ ".>"],
    update := [prefixes.update ++ "." ++ n ++ sfx,
      prefixes.update ++ "." ++ n ++ sfx ++ ".>"] }

/-! ## Store open / close (src/store.js lines 192-213)

The subscription-id list `_sids` is the whole mutable state;
`subscribe` models `transport.subscribe` returning a fresh id per
subject. -/

/-- `Store.open`: `deepStrictEqual(this._sids, [], \"Store already opened\")` throws unless the store is closed; otherwise the count,
create, find and update subjects are subscribed in that order and all
returned ids are recorded. -/
def storeOpen (subscribe : String → Nat) (subjects : SubjectGroups)
    (sids : List Nat) : Except String (List Nat) :=
  if sids = [] then
    .ok (subjects.count.map subscribe ++ subjects.create.map subscribe ++
      subjects.find.map subscribe ++ subjects.update.map subscribe)
  else
    .error "Store already opened"

/-- `Store.close`: `notDeepStrictEqual(this._sids, [], \"Store not opened\")` throws when the store is closed; otherwise every recorded id
is unsubscribed (returned in order) and the list is emptied. The result
is `(new sids, unsubscribed ids)`. -/
def storeClose (sids : List Nat) : Except String (List Nat × List Nat) :=
  if sids = [] then
    .error "Store not opened"
  else
    .ok ([], sids)

/-! ## Provider core (src/provider.js) -/

/-- The default tombstone filter value bound to `$or` when the schema
has a `metadata.deleted` field (src/provider.js lines 178-185). -/
def orTriple : Value :=
  .arr [.obj [("metadata", .obj [("$eq", .null)])],
    .obj [("metadata.deleted", .obj [("$eq", .null)])],
    .obj [("metadata.deleted", .obj [("$exists", .bool false)])]]

/-- `this._hasMetadata = isNotNil(fields.metadata) &&
isNotNil(fields.metadata.deleted)` (src/provider.js lines 175-176),
computed on the evaluated schema fields. -/
def hasMetadata (fields : Value) : Bool :=
  !isNilV (propV "metadata" fields) &&
    !isNilV (propV "deleted" (propV "metadata" fields))

/-- `this._defaultConditions` (src/provider.js lines 178-187). -/
def defaultConditions (fields : Value) : Obj :=
  if hasMetadata fields then [("$or", orTriple)] else []

/-- `this._mergeConditions = merge(this._defaultConditions)`:
user-supplied keys win over the default. -/
def mergeConditions (fields : Value) (conditions : Obj) : Obj :=
  rMerge (defaultConditions fields) conditions

/-- Wire payload of `Provider.count(conditions)` (src/provider.js lines
192-199). -/
def countQuery (fields : Value) (conditions : Obj) : Obj :=
  [("conditions", .obj (mergeConditions fields conditions))]

/-- Wire payload of `Provider.countAll()` (src/provider.js lines
201-205). -/
def countAllQuery (fields : Value) : Obj :=
  [("conditions", .obj (defaultConditions fields))]

/-- Wire payload of `Provider.create(object, projection)`
(src/provider.js lines 207-217): no conditions field at all. -/
def createQuery (object projection : Value) : Obj :=
  [("object", object), ("projection", projection)]

/-- Wire payload of one page request of `Provider.find(conditions,
projection, options)` (src/provider.js lines 257-269); `options` is the
per-page `\x7blimit, skip\x7d` object produced by `batchExec`. -/
def findQuery (fields : Value) (conditions : Obj) (options : Obj)
    (projection : Value) : Obj :=
  [("conditions", .obj (mergeConditions fields conditions)),
    ("options", .obj options), ("projection", projection)]

/-- Wire payload of the single request issued by
`Provider.findById(id, projection)` (src/provider.js lines 275-290). -/
def findByIdQuery (fields : Value) (id projection : Value) : Obj :=
  [("conditions", .obj (mergeConditions fields [("_id", id)])),
    ("projection", projection),
    ("options", .obj [("limit", .num 1)])]

/-- Wire payload of the update request issued by
`Provider.updateById(id, object, projection)` (src/provider.js lines
292-321): conditions are the merged `\x7b_id\x7d`, and with metadata the
object is stamped with `$currentDate: \x7bmetadata.updated\x7d`. -/
def updateByIdQuery (fields : Value) (id : Value) (object : Obj)
    (projection : Value) : Obj :=
  [("conditions", .obj (mergeConditions fields [("_id", id)])),
    ("object", .obj (if hasMetadata fields then
      rMerge object [("$currentDate", .obj [("metadata.updated", .bool true)])]
    else object)),
    ("projection", projection)]

/-- Wire payload of the update request issued by
`Provider.delete(conditions, projection)` (src/provider.js lines
219-248); `delete` rejects locally before dispatch when the schema has
no metadata. -/
def deleteUpdateQuery (fields : Value) (conditions : Obj)
    (projection : Value) : Obj :=
  [("conditions", .obj (mergeConditions fields conditions)),
    ("object", .obj [("$currentDate",
      .obj [("metadata.deleted", .bool true),
        ("metadata.updated", .bool true)])]),
    ("projection", projection)]

/-- The `$or` value inside the conditions field of a dispatched query
payload, `none` when the payload has no object-valued conditions or
they lack `$or`. -/
def dispatchedOr (q : Obj) : Option Value :=
  match olookup "conditions" q with
  | some (.obj conds) => olookup "$or" conds
  | _ => none

/-- `returnOneOnly = ifElse(pipe(prop length, equals 1), head,
always null)` (src/provider.js lines 115-118), applied to the list a
find reply resolved with. -/
def returnOneOnly (l : List Value) : Value :=
  if l.length = 1 then l.headD .undefined else .null

/-! ## Provider listener registry (src/provider.js lines 323-397) -/

/-- `isCreateOrUpdate` from src/provider.js. -/
def isCreateOrUpdate (eventName : String) : Bool :=
  eventName = "create" || eventName = "update"

/-- The `this._listeners` registry: for each of the `create` / `update`
events, a map (association list) from listener identity to the
subscription ids allocated for it. -/
structure ListenerReg where
  create : List (Nat × List Nat)
  update : List (Nat × List Nat)

/-- `Map.prototype.get`: `none` models `undefined`. -/
def mapGet (m : List (Nat × List Nat)) (k : Nat) : Option (List Nat) :=
  match m with
  | [] => none
  | kv :: rest => if kv.1 = k then some kv.2 else mapGet rest k

/-- `Map.prototype.delete` (the deleted/absent key is removed). -/
def mapDelete (m : List (Nat × List Nat)) (k : Nat) :
    List (Nat × List Nat) :=
  m.filter (fun kv => kv.1 ≠ k)

/-- `Provider._removeListener` (src/provider.js lines 345-349): reads
the sids for the listener (`undefined` when never added), deletes the
map entry and returns the sids. -/
def removeListenerSids (reg : ListenerReg) (eventName : String)
    (listener : Nat) : Option (List Nat) × ListenerReg :=
  if eventName = "create" then
    (mapGet reg.create listener,
      { reg with create := mapDelete reg.create listener })
  else
    (mapGet reg.update listener,
      { reg with update := mapDelete reg.update listener })

/-- `Provider.removeListener` (src/provider.js lines 392-397): for the
`create` / `update` events it evaluates
`this._removeListener(eventName, listener).map(this._unsubscribe)`;
when the listener was never added, `_removeListener` returns
`undefined` and the `.map` call throws a `TypeError` (modelled as
`.error`). On success the result is the new registry and the ids that
were unsubscribed. -/
def providerRemoveListener (reg : ListenerReg) (eventName : String)
    (listener : Nat) : Except String (ListenerReg × List Nat) :=
  if isCreateOrUpdate eventName then
    match removeListenerSids reg eventName listener with
    | (none, _) =>
        .error "TypeError: Cannot read properties of undefined (reading map)"
    | (some sids, reg2) => .ok (reg2, sids)
  else
    .ok (reg, [])

/-! ## Provider request executor (`exec` and `ProviderError` of the
current provider source, re-exported by the package index) -/

/-- Whether a reply callback arrived before the timer fired. -/
inductive ReplyOutcome where
  | timeout
  | reply (msg : String)

/-- The error a provider-side request future can reject with: the
`ProviderError(message, query)` raised by the timeout (carrying the
original query), or the `Error(error.message)` built from a wire error
envelope. -/
inductive SettleErr where
  | providerError (message : String) (query : Value)
  | remoteError (message : Value)

/-- Observable outcome of one provider-side `exec` call: the serialized
query handed to the transport, whether a timer was installed and
whether the reply callback cleared it, and how the promise settled
(`none`: never settles, which happens when the reply is unparsable —
the callback clears the timer first and `JSON.parse` then throws). -/
structure PExecOut where
  sent : String
  timerSet : Bool
  timerCleared : Bool
  settled : Option (Except SettleErr Value)

/-- The provider-side `exec(request, \x7bnoAckStream, timeout\x7d,
query)`: the query is stringified; in `noAckStream` mode it is
published and the promise resolves at once with no timer; in request
mode a timer is installed that rejects with
`ProviderError("query timeout after " ++ timeout ++ "ms", query)`, and
the reply callback first clears the timer, then parses the reply and
demuxes: a nil `error` field resolves with `result`, otherwise the
promise rejects with `Error(error.message)`. `parse` models
`JSON.parse` (`none` = throw). -/
def providerExec (parse : String → Option Value) (noAckStream : Bool)
    (timeout : Nat) (query : Value) (outcome : ReplyOutcome) : PExecOut :=
  let sent := stringify query
  if noAckStream then
    { sent := sent, timerSet := false, timerCleared := false,
      settled := some (.ok .undefined) }
  else
    match outcome with
    | .timeout =>
        { sent := sent, timerSet := true, timerCleared := false,
          settled := some (.error (.providerError
            ("query timeout after " ++ toString timeout ++ "ms") query)) }
    | .reply s =>
        { sent := sent, timerSet := true, timerCleared := true,
          settled :=
            match parse s with
            | none => none
            | some v =>
                if isNilV (propV "error" v) then
                  some (.ok (propV "result" v))
                else
                  some (.error (.remoteError
                    (propV "message" (propV "error" v)))) }

/-! ## Batch executor (src/provider.js lines 87-105) -/

/-- `options.limit || batchSize`: the limit defaults to the batch size
when absent (and, `||` being falsy-based, also when it is `0`). -/
def jsOrDefault (optLimit : Option Nat) (batchSize : Nat) : Nat :=
  match optLimit with
  | some l => if l = 0 then batchSize else l
  | none => batchSize

/-- The loop of `batchExec`: at iteration `skip` with `left` items
still wanted, request a page with limit `min left batchSize` and skip
`batchSize * skip`; stop after a page shorter than `batchSize`, or when
`left` reaches zero. Returns the issued `(limit, skip)` requests and
the concatenated result. The JS loop diverges when `batchSize = 0`, so
the model carries `0 < batchSize`. -/
def batchLoop (f : Nat → Nat → List Value) (batchSize : Nat)
    (hB : 0 < batchSize) (skip left : Nat) :
    List (Nat × Nat) × List Value :=
  if h : left = 0 then ([], [])
  else
    let req : Nat × Nat := (min left batchSize, batchSize * skip)
    let batch := f req.1 req.2
    if batch.length < batchSize then ([req], batch)
    else
      let rest := batchLoop f batchSize hB (skip + 1) (left - batchSize)
      (req :: rest.1, batch ++ rest.2)
termination_by left
decreasing_by exact Nat.sub_lt (Nat.pos_of_ne_zero h) hB

/-- `batchExec(exec, batchSize, options)` (src/provider.js lines
87-105), instrumented with the list of issued page requests. -/
def batchExec (f : Nat → Nat → List Value) (batchSize : Nat)
    (hB : 0 < batchSize) (optLimit : Option Nat) :
    List (Nat × Nat) × List Value :=
  batchLoop f batchSize hB 0 (jsOrDefault optLimit batchSize)

/-- Evaluated schema fields of a schema with a `metadata.deleted` field
(the `goodSchemaWithMetadata` of the tests in the repository). -/
def userFields : Value :=
  .obj [("metadata", .obj [("deleted", .obj [])])]

/-- Evaluated schema fields of a schema without metadata (the
`goodSchema` of the tests in the repository). -/
def plainFields : Value := .obj []

/-! ## Helper lemmas -/

theorem olookup_append (k : String) (xs ys : Obj) :
    olookup k (xs ++ ys) =
      match olookup k xs with
      | some v => some v
      | none => olookup k ys := by
  induction xs with
  | nil => simp [olookup]
  | cons kv rest ih =>
      by_cases h : kv.1 = k
      · simp [olookup, h]
      · simp [olookup, h, ih]

theorem rMerge_nil_left (b : Obj) : rMerge [] b = b := by
  simp [rMerge, olookup]

theorem olookup_map_override (k : String) (a b : Obj) :
    olookup k (a.map (fun kv => (kv.1, (olookup kv.1 b).getD kv.2))) =
      (olookup k a).map (fun v => (olookup k b).getD v) := by
  induction a with
  | nil => simp [olookup]
  | cons kv rest ih =>
      by_cases h : kv.1 = k
      · subst h; simp [olookup]
      · simp [olookup, h, ih]

theorem olookup_rMerge_left (k : String) (a b : Obj) (v : Value)
    (ha : olookup k a = some v) (hb : olookup k b = none) :
    olookup k (rMerge a b) = some v := by
  rw [rMerge, olookup_append, olookup_map_override, ha, hb]
  rfl

theorem batchLoop_eq (f : Nat → Nat → List Value) (B : Nat)
    (hB : 0 < B) (skip left : Nat) :
    batchLoop f B hB skip left =
      if left = 0 then ([], [])
      else if (f (min left B) (B * skip)).length < B then
        ([(min left B, B * skip)], f (min left B) (B * skip))
      else
        ((min left B, B * skip) ::
            (batchLoop f B hB (skip + 1) (left - B)).1,
          f (min left B) (B * skip) ++
            (batchLoop f B hB (skip + 1) (left - B)).2) := by
  rw [batchLoop]
  split
  · simp [*]
  · simp only [if_neg ‹¬ left = 0›]

theorem batchLoop_reqs (f : Nat → Nat → List Value) (B : Nat)
    (hB : 0 < B) :
    ∀ left skip i p, (batchLoop f B hB skip left).1[i]? = some p →
      p = (min (left - B * i) B, B * (skip + i)) := by
  intro left
  induction left using Nat.strong_induction_on with
  | _ left ih =>
    intro skip i p hp
    rw [batchLoop_eq] at hp
    by_cases h0 : left = 0
    · simp [h0] at hp
    · simp only [if_neg h0] at hp
      by_cases hshort : (f (min left B) (B * skip)).length < B
      · simp only [if_pos hshort] at hp
        match i with
        | 0 =>
            simp at hp
            simp [← hp]
        | i + 1 => simp at hp
      · simp only [if_neg hshort] at hp
        match i with
        | 0 =>
            simp at hp
            simp [← hp]
        | i + 1 =>
            simp only [List.getElem?_cons_succ] at hp
            have hrec := ih (left - B) (Nat.sub_lt (Nat.pos_of_ne_zero h0) hB)
              (skip + 1) i p hp
            have h1 : left - B - B * i = left - B * (i + 1) := by
              have : B * (i + 1) = B * i + B := by ring
              omega
            have h2 : skip + 1 + i = skip + (i + 1) := by omega
            rw [hrec, h1, h2]

theorem batchLoop_join (f : Nat → Nat → List Value) (B : Nat)
    (hB : 0 < B) :
    ∀ left skip, (batchLoop f B hB skip left).2 =
      ((batchLoop f B hB skip left).1.map (fun r => f r.1 r.2)).flatten := by
  intro left
  induction left using Nat.strong_induction_on with
  | _ left ih =>
    intro skip
    rw [batchLoop_eq]
    by_cases h0 : left = 0
    · simp [h0]
    · simp only [if_neg h0]
      by_cases hshort : (f (min left B) (B * skip)).length < B
      · simp [hshort]
      · simp only [if_neg hshort, List.map_cons, List.flatten_cons]
        rw [ih (left - B) (Nat.sub_lt (Nat.pos_of_ne_zero h0) hB) (skip + 1)]

theorem batchLoop_len (f : Nat → Nat → List Value) (B : Nat)
    (hB : 0 < B) (hf : ∀ l s, (f l s).length ≤ l) :
    ∀ left skip, (batchLoop f B hB skip left).2.length ≤ left := by
  intro left
  induction left using Nat.strong_induction_on with
  | _ left ih =>
    intro skip
    rw [batchLoop_eq]
    by_cases h0 : left = 0
    · simp [h0]
    · simp only [if_neg h0]
      by_cases hshort : (f (min left B) (B * skip)).length < B
      · simp only [if_pos hshort]
        have := hf (min left B) (B * skip)
        omega
      · simp only [if_neg hshort, List.length_append]
        have hb := hf (min left B) (B * skip)
        have hrec := ih (left - B) (Nat.sub_lt (Nat.pos_of_ne_zero h0) hB)
          (skip + 1)
        omega

theorem batchLoop_full_pages (f : Nat → Nat → List Value) (B : Nat)
    (hB : 0 < B) :
    ∀ left skip j p q, (batchLoop f B hB skip left).1[j]? = some p →
      (batchLoop f B hB skip left).1[j + 1]? = some q →
      B ≤ (f p.1 p.2).length := by
  intro left
  induction left using Nat.strong_induction_on with
  | _ left ih =>
    intro skip j p q hp hq
    rw [batchLoop_eq] at hp hq
    by_cases h0 : left = 0
    · simp [h0] at hp
    · simp only [if_neg h0] at hp hq
      by_cases hshort : (f (min left B) (B * skip)).length < B
      · simp only [if_pos hshort] at hp hq
        match j with
        | 0 => simp at hq
        | j + 1 => simp at hp
      · simp only [if_neg hshort] at hp hq
        match j with
        | 0 =>
            simp only [List.getElem?_cons_zero, Option.some.injEq] at hp
            rw [← hp]
            simp only [gt_iff_lt]
            omega
        | j + 1 =>
            simp only [List.getElem?_cons_succ] at hp hq
            exact ih (left - B) (Nat.sub_lt (Nat.pos_of_ne_zero h0) hB)
              (skip + 1) j p q hp hq

/-! ## Claim theorems -/

/-- C1: every response envelope the Store builds carries exactly one of
the fields `result` / `error`: a model success is wrapped as
`\x7bresult: value\x7d`, and any failure (parse error or model
rejection) as `\x7berror: \x7bmessage\x7d\x7d`, where only the
`message` field of the error survives. -/
theorem store_envelope_exactly_one
    (parse : String → Except JsError Value)
    (process : Value → Except JsError Value) :
    (∀ msg replyTo env,
        (storeExec parse process msg replyTo).envelope = some env →
        hasKey env "result" ≠ hasKey env "error" ∧
          ((∃ v, env = buildResult v) ∨ ∃ e : JsError, env = buildError e))
    ∧ (∀ m rt p v, parse m = .ok p → process p = .ok v →
        (storeExec parse process (some m) (some rt)).envelope =
          some (buildResult v))
    ∧ (∀ m rt p e, parse m = .ok p → process p = .error e →
        (storeExec parse process (some m) (some rt)).envelope =
          some (buildError e))
    ∧ (∀ m rt e, parse m = .error e →
        (storeExec parse process (some m) (some rt)).envelope =
          some (buildError e))
    ∧ (∀ e₁ e₂ : JsError, e₁.message = e₂.message →
        buildError e₁ = buildError e₂) := by
  refine ⟨?_, ?_, ?_, ?_, ?_⟩
  · intro msg replyTo env h
    match msg, replyTo with
    | none, _ => simp [storeExec] at h
    | some m, none => simp [storeExec] at h
    | some m, some rt =>
        cases hp : parse m with
        | error e =>
            simp [storeExec, hp] at h
            refine ⟨?_, .inr ⟨e, h.symm⟩⟩
            rw [← h]
            simp [buildError, hasKey, olookup]
        | ok p =>
            cases hpr : process p with
            | ok v =>
                simp [storeExec, hp, hpr] at h
                refine ⟨?_, .inl ⟨v, h.symm⟩⟩
                rw [← h]
                simp [buildResult, hasKey, olookup]
            | error e =>
                simp [storeExec, hp, hpr] at h
                refine ⟨?_, .inr ⟨e, h.symm⟩⟩
                rw [← h]
                simp [buildError, hasKey, olookup]
  · intro m rt p v hp hpr
    simp [storeExec, hp, hpr]
  · intro m rt p e hp hpr
    simp [storeExec, hp, hpr]
  · intro m rt e hp
    simp [storeExec, hp]
  · intro e₁ e₂ h
    simp [buildError, h]

/-- C1 witness: the theorem applied at a concrete parse, process and
message. -/
theorem store_envelope_exactly_one_witness :
    (storeExec (fun _ => .ok .null) (fun _ => .ok (.num 7)) (some "m")
        (some "r")).envelope = some (buildResult (.num 7)) :=
  (store_envelope_exactly_one (fun _ => .ok .null)
    (fun _ => .ok (.num 7))).2.1 "m" "r" .null (.num 7) rfl rfl

/-- C2 counterexample: on a message with no reply subject the Store
handler does not invoke the Model at all — it rejects with
`replyTo must be a string` and publishes nothing, contradicting the
claim that the Model is still invoked and only the publish step is
skipped. -/
theorem store_no_reply_counterexample :
    (storeExec (fun _ => .ok .null) (fun _ => .ok .null) (some "m")
        none).modelCalled = false ∧
    (storeExec (fun _ => .ok .null) (fun _ => .ok .null) (some "m")
        none).published = none ∧
    (storeExec (fun _ => .ok .null) (fun _ => .ok .null) (some "m")
        none).localReject = some "replyTo must be a string" :=
  ⟨rfl, rfl, rfl⟩

/-- C2 (amended): for every inbound message without a reply subject the
Store handler rejects with `replyTo must be a string` before parsing:
the Model is not invoked, no event is emitted and nothing is
published. -/
theorem store_no_reply_rejects
    (parse : String → Except JsError Value)
    (process : Value → Except JsError Value) (m : String) :
    storeExec parse process (some m) none =
      ⟨some "replyTo must be a string", none, false, none, none⟩ := rfl

/-- C7: for every wire payload, the options object `Store._onUpdate`
passes to `Model.update` is `\x7bmulti: true, select: projection\x7d`
with `multi` always `true`, whatever the payload contains. -/
theorem update_forces_multi (payload : Value) :
    (onUpdateArgs payload).2.2 =
      [("multi", .bool true), ("select", propV "projection" payload)]
    ∧ olookup "multi" (onUpdateArgs payload).2.2 = some (.bool true) :=
  ⟨rfl, rfl⟩

/-- C9: evaluating `Provider.removeListener(\"create\", f)` for a
listener `f` that was never added: `_removeListener` returns
`undefined` and the `.map(this._unsubscribe)` call throws a TypeError
instead of being a no-op. -/
theorem removeListener_never_added_crashes :
    providerRemoveListener ⟨[], []⟩ "create" 0 =
      .error "TypeError: Cannot read properties of undefined (reading map)" :=
  rfl

/-- C10: when an inbound message fails JSON parsing (and a reply
subject is present) the Store publishes the error-envelope object
itself, while on the successfully-parsed path both model results and
model errors are `JSON.stringify`-ed before publishing — the two
failure paths put values of different types on the wire. -/
theorem store_publish_wire_types
    (parse : String → Except JsError Value)
    (process : Value → Except JsError Value) :
    (∀ m rt e, parse m = .error e →
        (storeExec parse process (some m) (some rt)).published =
          some (rt, .objVal (buildError e)))
    ∧ (∀ m rt p v, parse m = .ok p → process p = .ok v →
        (storeExec parse process (some m) (some rt)).published =
          some (rt, .strVal (stringify (buildResult v))))
    ∧ (∀ m rt p e, parse m = .ok p → process p = .error e →
        (storeExec parse process (some m) (some rt)).published =
          some (rt, .strVal (stringify (buildError e)))) := by
  refine ⟨?_, ?_, ?_⟩
  · intro m rt e hp
    simp [storeExec, hp]
  · intro m rt p v hp hpr
    simp [storeExec, hp, hpr]
  · intro m rt p e hp hpr
    simp [storeExec, hp, hpr]

/-- C10 witness: the theorem applied at a concrete failing parse. -/
theorem store_publish_wire_types_witness :
    (storeExec (fun _ => .error ⟨"bad json", []⟩)
        (fun _ => .ok .null) (some "m") (some "r")).published =
      some ("r", .objVal (buildError ⟨"bad json", []⟩)) :=
  (store_publish_wire_types (fun _ => .error ⟨"bad json", []⟩)
    (fun _ => .ok .null)).1 "m" "r" ⟨"bad json", []⟩ rfl

/-- C3 counterexample: for a provider with metadata, a user condition
object binding `$or` itself (non-nil) overrides the default: the
dispatched conditions of `count` do not contain the default `$or`
triple. -/
theorem default_conditions_or_override_counterexample :
    hasMetadata userFields = true ∧
    dispatchedOr (countQuery userFields [("$or", Value.null)]) ≠
      some orTriple := by
  refine ⟨rfl, ?_⟩
  intro h
  have h1 : dispatchedOr (countQuery userFields [("$or", Value.null)]) =
      some Value.null := rfl
  rw [h1] at h
  exact Value.noConfusion (Option.some.inj h)

/-- C3 (amended): for every provider with `hasMetadata` and every
non-nil user condition object that does not itself bind the `$or` key,
the conditions dispatched by `count`, `countAll`, `find` (hence
`findAll`, whose conditions are the empty object), `findById`,
`updateById` and `delete` contain the default `$or` triple; for
providers without metadata the merged conditions are exactly the user
conditions and none of the dispatched conditions contain the triple;
the payload dispatched by `create` carries no conditions at all. -/
theorem default_conditions_dispatch (fields : Value) (c : Obj)
    (id object projection : Value) (obj : Obj) (opts : Obj)
    (hc : olookup "$or" c = none) :
    (hasMetadata fields = true →
      dispatchedOr (countQuery fields c) = some orTriple ∧
      dispatchedOr (countAllQuery fields) = some orTriple ∧
      dispatchedOr (findQuery fields c opts projection) = some orTriple ∧
      dispatchedOr (findByIdQuery fields id projection) = some orTriple ∧
      dispatchedOr (updateByIdQuery fields id obj projection) =
        some orTriple ∧
      dispatchedOr (deleteUpdateQuery fields c projection) = some orTriple)
    ∧ (hasMetadata fields = false →
      mergeConditions fields c = c ∧
      dispatchedOr (countQuery fields c) = none ∧
      dispatchedOr (countAllQuery fields) = none ∧
      dispatchedOr (findQuery fields c opts projection) = none ∧
      dispatchedOr (findByIdQuery fields id projection) = none ∧
      dispatchedOr (updateByIdQuery fields id obj projection) = none)
    ∧ olookup "conditions" (createQuery object projection) = none := by
  have hor : ∀ h : hasMetadata fields = true,
      olookup "$or" (defaultConditions fields) = some orTriple := by
    intro h
    simp [defaultConditions, h, olookup]
  have hid : olookup "$or" ([("_id", id)] : Obj) = none := rfl
  refine ⟨?_, ?_, rfl⟩
  · intro h
    refine ⟨?_, ?_, ?_, ?_, ?_, ?_⟩
    · simpa [dispatchedOr, countQuery, olookup, mergeConditions] using
        olookup_rMerge_left "$or" (defaultConditions fields) c orTriple
          (hor h) hc
    · simpa [dispatchedOr, countAllQuery, olookup] using hor h
    · simpa [dispatchedOr, findQuery, olookup, mergeConditions] using
        olookup_rMerge_left "$or" (defaultConditions fields) c orTriple
          (hor h) hc
    · simpa [dispatchedOr, findByIdQuery, olookup, mergeConditions] using
        olookup_rMerge_left "$or" (defaultConditions fields) [("_id", id)]
          orTriple (hor h) hid
    · simpa [dispatchedOr, updateByIdQuery, olookup, mergeConditions] using
        olookup_rMerge_left "$or" (defaultConditions fields) [("_id", id)]
          orTriple (hor h) hid
    · simpa [dispatchedOr, deleteUpdateQuery, olookup, mergeConditions] using
        olookup_rMerge_left "$or" (defaultConditions fields) c orTriple
          (hor h) hc
  · intro h
    have hd : defaultConditions fields = [] := by
      simp [defaultConditions, h]
    have hm : mergeConditions fields c = c := by
      rw [mergeConditions, hd, rMerge_nil_left]
    have hmid : mergeConditions fields [("_id", id)] = [("_id", id)] := by
      rw [mergeConditions, hd, rMerge_nil_left]
    refine ⟨hm, ?_, ?_, ?_, ?_, ?_⟩
    · simp [dispatchedOr, countQuery, olookup, hm, hc]
    · simp [dispatchedOr, countAllQuery, olookup, hd]
    · simp [dispatchedOr, findQuery, olookup, hm, hc]
    · simp [dispatchedOr, findByIdQuery, olookup, hmid, hid]
    · simp [dispatchedOr, updateByIdQuery, olookup, hmid, hid]

/-- C3 witness: the theorem applied at the metadata schema fields and a
concrete user condition without `$or`. -/
theorem default_conditions_dispatch_witness :
    olookup "$or" ([("a", Value.num 1)] : Obj) = none ∧
      hasMetadata userFields = true ∧
      dispatchedOr (countQuery userFields [("a", Value.num 1)]) =
        some orTriple :=
  ⟨rfl, rfl,
    ((default_conditions_dispatch userFields [("a", Value.num 1)] .null
      .null .null [] [] rfl).1 rfl).1⟩

/-- C4 counterexample: a page function may return more items than the
requested limit; with `batchSize = 2` and `limit = 1` a function that
always returns two items makes `batchExec` return two items, more than
`limit` — the claimed bound of at most limit items in total fails for
arbitrary page functions. -/
theorem batchExec_overfull_page_counterexample :
    ¬ ((batchExec (fun _ _ => [Value.num 0, Value.num 0]) 2
        (Nat.succ_pos 1) (some 1)).2.length ≤ 1) := by
  have h : batchExec (fun _ _ => [Value.num 0, Value.num 0]) 2
      (Nat.succ_pos 1) (some 1) =
      ([(1, 0)], [Value.num 0, Value.num 0]) := by
    simp [batchExec, jsOrDefault, batchLoop_eq]
  rw [h]
  simp

/-- C4 (amended): `batchExec(f, batchSize, \x7blimit\x7d)` defaults the
limit to `batchSize` when absent, requests page `i` with
`limit = min(left, batchSize)` (where `left = limit - batchSize * i`)
and `skip = batchSize * i`, returns the concatenation of the pages —
with at most `limit` items in total provided every page holds at most
the requested number of items — and issues a further request only
after a page of full `batchSize` length, i.e. it terminates at the
first short page. -/
theorem batchExec_spec (f : Nat → Nat → List Value) (B : Nat)
    (hB : 0 < B) (optLimit : Option Nat) :
    (batchExec f B hB none = batchExec f B hB (some B))
    ∧ (∀ i p, (batchExec f B hB optLimit).1[i]? = some p →
        p = (min (jsOrDefault optLimit B - B * i) B, B * i))
    ∧ ((batchExec f B hB optLimit).2 =
        ((batchExec f B hB optLimit).1.map (fun r => f r.1 r.2)).flatten)
    ∧ ((∀ l s, (f l s).length ≤ l) →
        (batchExec f B hB optLimit).2.length ≤ jsOrDefault optLimit B)
    ∧ (∀ j p q, (batchExec f B hB optLimit).1[j]? = some p →
        (batchExec f B hB optLimit).1[j + 1]? = some q →
        B ≤ (f p.1 p.2).length) := by
  refine ⟨?_, ?_, ?_, ?_, ?_⟩
  · simp [batchExec, jsOrDefault, ite_self]
  · intro i p hp
    have := batchLoop_reqs f B hB (jsOrDefault optLimit B) 0 i p hp
    simpa using this
  · exact batchLoop_join f B hB (jsOrDefault optLimit B) 0
  · intro hf
    exact batchLoop_len f B hB hf (jsOrDefault optLimit B) 0
  · intro j p q hp hq
    exact batchLoop_full_pages f B hB (jsOrDefault optLimit B) 0 j p q hp hq

/-- C4 witness: the theorem applied at a concrete page function and
batch size. -/
theorem batchExec_spec_witness :
    (0 : Nat) < 2 ∧
      (batchExec (fun _ _ => []) 2 (Nat.succ_pos 1) (some 3)).2.length ≤ 3 :=
  ⟨Nat.succ_pos 1,
    (batchExec_spec (fun _ _ => []) 2 (Nat.succ_pos 1)
      (some 3)).2.2.2.1 (fun l _ => by simp)⟩

/-- C5: a request-mode `exec` call that sees no reply rejects with a
`ProviderError` whose message is `query timeout after \x7btimeout\x7dms`
and which carries the original query; the reply callback clears the
timer first, and a call that got a reply never settles with the
timeout `ProviderError`. -/
theorem exec_timeout_spec (parse : String → Option Value) (t : Nat)
    (q : Value) :
    ((providerExec parse false t q .timeout).settled =
        some (.error (.providerError
          ("query timeout after " ++ toString t ++ "ms") q)))
    ∧ (providerExec parse false t q .timeout).timerSet = true
    ∧ (∀ s, (providerExec parse false t q (.reply s)).timerCleared = true)
    ∧ (∀ s m q2, (providerExec parse false t q (.reply s)).settled ≠
        some (.error (.providerError m q2))) := by
  refine ⟨rfl, rfl, fun s => rfl, ?_⟩
  intro s m q2 h
  simp only [providerExec, Bool.false_eq_true, if_false] at h
  cases hp : parse s with
  | none => simp [hp] at h
  | some v =>
      simp only [hp] at h
      by_cases hnil : isNilV (propV "error" v) = true
      · simp [hnil] at h
      · simp [hnil] at h

/-- C6: `findById` issues a single find request whose conditions are
the default conditions merged with `\x7b_id: id\x7d` and whose options
are `\x7blimit: 1\x7d`; the reply reducer resolves the single element
of a length-1 list and `null` for every other length, without
throwing. -/
theorem findById_spec (fields id projection : Value) (l : List Value) :
    (hasMetadata fields = true →
      findByIdQuery fields id projection =
        [("conditions", .obj [("$or", orTriple), ("_id", id)]),
          ("projection", projection),
          ("options", .obj [("limit", .num 1)])])
    ∧ (hasMetadata fields = false →
      findByIdQuery fields id projection =
        [("conditions", .obj [("_id", id)]),
          ("projection", projection),
          ("options", .obj [("limit", .num 1)])])
    ∧ (∀ x, returnOneOnly [x] = x)
    ∧ (l.length ≠ 1 → returnOneOnly l = .null) := by
  refine ⟨?_, ?_, ?_, ?_⟩
  · intro h
    simp [findByIdQuery, mergeConditions, defaultConditions, h, rMerge,
      olookup]
  · intro h
    simp [findByIdQuery, mergeConditions, defaultConditions, h, rMerge,
      olookup]
  · intro x
    simp [returnOneOnly]
  · intro h
    simp [returnOneOnly, h]

/-- C6 witness: the theorem applied at the metadata schema fields, a
concrete id and a two-element reply. -/
theorem findById_spec_witness :
    hasMetadata userFields = true ∧
      findByIdQuery userFields (.num 1) (.obj [("b", .num 1)]) =
        [("conditions", .obj [("$or", orTriple), ("_id", .num 1)]),
          ("projection", .obj [("b", .num 1)]),
          ("options", .obj [("limit", .num 1)])] ∧
      returnOneOnly [.null, .null] = .null :=
  ⟨rfl,
    (findById_spec userFields (.num 1) (.obj [("b", .num 1)]) []).1 rfl,
    (findById_spec userFields (.num 1) (.obj [("b", .num 1)])
      [.null, .null]).2.2.2 (by simp)⟩

/-- C8: `Store.open` fails when the subscription-id list is non-empty
and otherwise records the ids of all eight subject subscriptions in
order; `Store.close` fails when the list is empty and otherwise
unsubscribes every recorded id and empties the list; so after `open`
then `close` the list is empty and a second `close` fails. -/
theorem store_open_close_spec (subscribe : String → Nat) (name : String)
    (sids : List Nat) :
    (sids ≠ [] →
      storeOpen subscribe (getSubjects name defaultPrefixes "") sids =
        .error "Store already opened")
    ∧ (storeOpen subscribe (getSubjects name defaultPrefixes "") [] =
        .ok ((getSubjects name defaultPrefixes "").count.map subscribe ++
          (getSubjects name defaultPrefixes "").create.map subscribe ++
          (getSubjects name defaultPrefixes "").find.map subscribe ++
          (getSubjects name defaultPrefixes "").update.map subscribe))
    ∧ (storeClose ([] : List Nat) = .error "Store not opened")
    ∧ (sids ≠ [] → storeClose sids = .ok ([], sids))
    ∧ (∀ l, storeOpen subscribe (getSubjects name defaultPrefixes "") [] =
        .ok l →
        storeClose l = .ok ([], l) ∧
          storeClose ([] : List Nat) = .error "Store not opened") := by
  refine ⟨?_, ?_, rfl, ?_, ?_⟩
  · intro h
    simp [storeOpen, h]
  · simp [storeOpen]
  · intro h
    simp [storeClose, h]
  · intro l hl
    simp [storeOpen] at hl
    subst hl
    refine ⟨?_, rfl⟩
    simp [storeClose, getSubjects]

/-- C8 witness: the theorem applied at a concrete subscribe function,
schema name and open store. -/
theorem store_open_close_spec_witness :
    ([1] : List Nat) ≠ [] ∧
      storeClose ([1] : List Nat) = .ok ([], [1]) :=
  ⟨by simp,
    (store_open_close_spec (fun _ => 1) "user" [1]).2.2.2.1 (by simp)⟩

end PubsubStore
